import Mathlib

/-!
Verification development for the BMSCE MCP client (`client.py`).

The development shallowly embeds the decision-and-fallback orchestration
logic of `MCPClient` (tool-call extraction, argument validation, payload
classification, rendering dispatch) as executable Lean functions, and
proves the spec's testable properties about them.  Text is modelled as
`List Char`; JSON payloads are parsed by a `json.loads`-faithful parser;
Python exceptions that the source can raise along the modelled paths are
made explicit with `Except PyExc`.
-/

namespace BMSCE

/-- The `\x7b` character, i.e. a left curly bracket. -/
def obr : Char := '\x7b'

/-- The `\x7d` character, i.e. a right curly bracket. -/
def cbr : Char := '\x7d'

/-- JSON values as produced by Python `json.loads`.  Numbers keep the parsed
mantissa and power-of-ten exponent together with an `isFloat` flag
(`json.loads` yields `int` for pure-integer literals and `float` otherwise);
`NaN`/`Infinity` are the non-standard literals Python accepts by default.
Objects keep their members in source order; lookups below take the *last*
binding of a key, matching how repeated keys collapse in a Python `dict`. -/
inductive Json where
  | null
  | bool (b : Bool)
  | num (mantissa : Int) (exp10 : Int) (isFloat : Bool)
  | nan
  | infinity (neg : Bool)
  | str (s : String)
  | arr (elems : List Json)
  | obj (members : List (String × Json))
deriving Repr

/-- JSON insignificant whitespace (the characters Python's `json` module
skips between tokens). -/
def isJsonWs (c : Char) : Bool :=
  c == ' ' || c == '\t' || c == '\n' || c == '\r'

/-- Drop leading JSON whitespace. -/
def skipWs : List Char → List Char
  | [] => []
  | c :: cs => if isJsonWs c then skipWs cs else c :: cs

/-- Value of a decimal digit character. -/
def digitVal (c : Char) : Nat := c.toNat - 48

/-- Interpret a run of decimal digits. -/
def digitsToNat (ds : List Char) : Nat :=
  ds.foldl (fun n c => 10 * n + digitVal c) 0

/-- Value of a hexadecimal digit character, if it is one. -/
def hexVal (c : Char) : Option Nat :=
  if '0' ≤ c ∧ c ≤ '9' then some (c.toNat - 48)
  else if 'a' ≤ c ∧ c ≤ 'f' then some (c.toNat - 87)
  else if 'A' ≤ c ∧ c ≤ 'F' then some (c.toNat - 55)
  else none

/-- Check that `lit` is a prefix of `cs` and drop it. -/
def dropLit : List Char → List Char → Option (List Char)
  | [], cs => some cs
  | _, [] => none
  | l :: ls, c :: cs => if c == l then dropLit ls cs else none

/-- Scan a JSON string literal body (the part after the opening quote),
accumulating decoded characters in reverse.  Mirrors Python's strict-mode
scanner: the usual short escapes and `\uXXXX` are decoded, and unescaped
control characters below `0x20` are rejected.  (Surrogate-pair combination
for astral `\u` escapes is not modelled; no claim exercises it.) -/
def scanStringBody : Nat → List Char → List Char → Option (String × List Char)
  | 0, _, _ => none
  | fuel + 1, acc, cs =>
    match cs with
    | [] => none
    | c :: rest =>
      if c == '"' then some (String.mk acc.reverse, rest)
      else if c == '\\' then
        match rest with
        | [] => none
        | e :: rest2 =>
          if e == '"' then scanStringBody fuel ('"' :: acc) rest2
          else if e == '\\' then scanStringBody fuel ('\\' :: acc) rest2
          else if e == '/' then scanStringBody fuel ('/' :: acc) rest2
          else if e == 'b' then scanStringBody fuel (Char.ofNat 8 :: acc) rest2
          else if e == 'f' then scanStringBody fuel (Char.ofNat 12 :: acc) rest2
          else if e == 'n' then scanStringBody fuel ('\n' :: acc) rest2
          else if e == 'r' then scanStringBody fuel ('\r' :: acc) rest2
          else if e == 't' then scanStringBody fuel ('\t' :: acc) rest2
          else if e == 'u' then
            match rest2 with
            | h1 :: h2 :: h3 :: h4 :: rest3 =>
              match hexVal h1, hexVal h2, hexVal h3, hexVal h4 with
              | some v1, some v2, some v3, some v4 =>
                scanStringBody fuel
                  (Char.ofNat (((v1 * 16 + v2) * 16 + v3) * 16 + v4) :: acc) rest3
              | _, _, _, _ => none
            | _ => none
          else none
      else if c.toNat < 32 then none
      else scanStringBody fuel (c :: acc) rest

/-- Parse a JSON number starting at `cs` (which may begin with a minus sign),
following the grammar of Python's `NUMBER_RE`: an integer part without
leading zeros, an optional fraction, an optional exponent.  Where the regex
would match only a strict prefix (e.g. `01`, `1.`, `1e`), the leftover
character can never validly continue a JSON document, so failing the whole
scan is observationally equivalent. -/
def scanNumber (cs : List Char) : Option (Json × List Char) :=
  let signSplit : Bool × List Char :=
    match cs with
    | '-' :: rest => (true, rest)
    | _ => (false, cs)
  let neg := signSplit.1
  let cs1 := signSplit.2
  let intds := cs1.takeWhile Char.isDigit
  let rest1 := cs1.dropWhile Char.isDigit
  match intds with
  | [] => none
  | d0 :: drest =>
    if d0 == '0' && !drest.isEmpty then none
    else
      let hasFrac : Bool := match rest1 with | '.' :: _ => true | _ => false
      let fds := match rest1 with | '.' :: r2 => r2.takeWhile Char.isDigit | _ => ([] : List Char)
      let rest2 := match rest1 with | '.' :: r2 => r2.dropWhile Char.isDigit | _ => rest1
      if hasFrac && fds.isEmpty then none
      else
        let m : Int := (if neg then -1 else 1) * (digitsToNat (intds ++ fds) : Int)
        let hasExpMark : Bool := match rest2 with | c :: _ => c == 'e' || c == 'E' | [] => false
        if hasExpMark then
          let r3 := rest2.tail
          let signedTail : Int × List Char :=
            match r3 with
            | '+' :: r => (1, r)
            | '-' :: r => (-1, r)
            | _ => (1, r3)
          let eds := signedTail.2.takeWhile Char.isDigit
          let rest3 := signedTail.2.dropWhile Char.isDigit
          if eds.isEmpty then none
          else some (.num m (signedTail.1 * (digitsToNat eds : Int) - (fds.length : Int)) true, rest3)
        else if hasFrac then some (.num m (-(fds.length : Int)) true, rest2)
        else some (.num m 0 false, rest2)

mutual

/-- Parse one JSON value at the head of `cs` (no leading whitespace).  The
fuel argument bounds recursion depth; every recursive call consumes at least
one input character first, so `length + 1` fuel always suffices. -/
def scanValue : Nat → List Char → Option (Json × List Char)
  | 0, _ => none
  | fuel + 1, cs =>
    match cs with
    | [] => none
    | c :: rest =>
      if c == obr then
        match skipWs rest with
        | [] => none
        | c1 :: rest1 =>
          if c1 == cbr then some (.obj [], rest1)
          else scanMembers fuel (c1 :: rest1) []
      else if c == '[' then
        match skipWs rest with
        | [] => none
        | c1 :: rest1 =>
          if c1 == ']' then some (.arr [], rest1)
          else scanElems fuel (c1 :: rest1) []
      else if c == '"' then
        match scanStringBody (rest.length + 1) [] rest with
        | some (s, r) => some (.str s, r)
        | none => none
      else if c == 't' then (dropLit ['r', 'u', 'e'] rest).map (fun r => (.bool true, r))
      else if c == 'f' then (dropLit ['a', 'l', 's', 'e'] rest).map (fun r => (.bool false, r))
      else if c == 'n' then (dropLit ['u', 'l', 'l'] rest).map (fun r => (.null, r))
      else if c == 'N' then (dropLit ['a', 'N'] rest).map (fun r => (.nan, r))
      else if c == 'I' then
        (dropLit ['n', 'f', 'i', 'n', 'i', 't', 'y'] rest).map (fun r => (.infinity false, r))
      else if c == '-' then
        match dropLit ['I', 'n', 'f', 'i', 'n', 'i', 't', 'y'] rest with
        | some r => some (.infinity true, r)
        | none => scanNumber cs
      else if c.isDigit then scanNumber cs
      else none

/-- Parse the members of a JSON object, `cs` positioned at the first
character of a member (whitespace already skipped, non-empty-object case). -/
def scanMembers : Nat → List Char → List (String × Json) → Option (Json × List Char)
  | 0, _, _ => none
  | fuel + 1, cs, acc =>
    match cs with
    | '"' :: rest =>
      match scanStringBody (rest.length + 1) [] rest with
      | none => none
      | some (key, r1) =>
        match skipWs r1 with
        | ':' :: r2 =>
          match scanValue fuel (skipWs r2) with
          | none => none
          | some (v, r3) =>
            match skipWs r3 with
            | [] => none
            | c :: r4 =>
              if c == ',' then scanMembers fuel (skipWs r4) (acc ++ [(key, v)])
              else if c == cbr then some (.obj (acc ++ [(key, v)]), r4)
              else none
        | _ => none
    | _ => none

/-- Parse the elements of a JSON array, `cs` positioned at the first
character of an element (whitespace already skipped, non-empty case). -/
def scanElems : Nat → List Char → List Json → Option (Json × List Char)
  | 0, _, _ => none
  | fuel + 1, cs, acc =>
    match scanValue fuel cs with
    | none => none
    | some (v, r1) =>
      match skipWs r1 with
      | [] => none
      | c :: r2 =>
        if c == ',' then scanElems fuel (skipWs r2) (acc ++ [v])
        else if c == ']' then some (.arr (acc ++ [v]), r2)
        else none

end

/-- Embedding of Python `json.loads` on a character list: one JSON document,
optionally surrounded by whitespace; anything else (including the empty
string) yields `none`, standing for `json.JSONDecodeError`. -/
def Json.parse (cs : List Char) : Option Json :=
  match scanValue (cs.length + 1) (skipWs cs) with
  | some (v, rest) => if skipWs rest = [] then some v else none
  | none => none

/-- Python type name of a parsed JSON value, as it appears in exception
messages. -/
def pyTypeName : Json → String
  | .null => "NoneType"
  | .bool _ => "bool"
  | .num _ _ false => "int"
  | .num _ _ true => "float"
  | .nan => "float"
  | .infinity _ => "float"
  | .str _ => "str"
  | .arr _ => "list"
  | .obj _ => "dict"

/-- Python truthiness of a parsed JSON value (`bool(v)`). -/
def pyTruthy : Json → Bool
  | .null => false
  | .bool b => b
  | .num m _ _ => m != 0
  | .nan => true
  | .infinity _ => true
  | .str s => s ≠ ""
  | .arr elems => !elems.isEmpty
  | .obj members => !members.isEmpty

/-- Look a key up in an object's member list, taking the last binding —
the value a Python `dict` built by `json.loads` would hold. -/
def dictGetLast (members : List (String × Json)) (k : String) : Option Json :=
  match members with
  | [] => none
  | kv :: rest =>
    match dictGetLast rest k with
    | some v => some v
    | none => if kv.1 == k then some kv.2 else none

/-- Python `v == s` for a string literal `s`: true exactly when `v` is that
string. -/
def jsonEqStr (v : Json) (s : String) : Bool :=
  match v with
  | .str t => t == s
  | _ => false

/-- Python exceptions the modelled code paths can raise, carrying `str(e)`. -/
inductive PyExc where
  | typeError (msg : String)
  | attributeError (msg : String)

/-- The text `str(e)` of a caught exception, as interpolated into
`f"Tool execution failed: \x7be\x7d"`. -/
def PyExc.toMessage : PyExc → String
  | .typeError m => m
  | .attributeError m => m

/-- Contiguous-substring test on character lists (Python `pat in s`). -/
def isSubListOf (pat : List Char) : List Char → Bool
  | [] => pat.isEmpty
  | c :: rest => pat.isPrefixOf (c :: rest) || isSubListOf pat rest

/-- Python `k in v` for a string `k`: key test on dicts, substring test on
strings, membership test on lists; `TypeError` otherwise. -/
def pyIn (k : String) (v : Json) : Except PyExc Bool :=
  match v with
  | .obj members => .ok (members.any (fun kv => kv.1 == k))
  | .str s => .ok (isSubListOf k.toList s.toList)
  | .arr elems => .ok (elems.any (fun x => jsonEqStr x k))
  | _ => .error (.typeError ("argument of type \x27" ++ pyTypeName v ++ "\x27 is not iterable"))

/-- Python `v[k]` for a string `k`.  On the modelled paths it is only
reached after `k in v` succeeded, so the dict case always finds the key;
non-dict containers raise `TypeError` on a string index. -/
def pyGetItem (v : Json) (k : String) : Except PyExc Json :=
  match v with
  | .obj members =>
    match dictGetLast members k with
    | some x => .ok x
    | none => .error (.typeError ("KeyError: " ++ k))
  | .str _ => .error (.typeError "string indices must be integers")
  | .arr _ => .error (.typeError "list indices must be integers or slices, not str")
  | _ => .error (.typeError ("\x27" ++ pyTypeName v ++ "\x27 object is not subscriptable"))

/-- Python `v.get(k, dflt)`: defined on dicts, `AttributeError` otherwise. -/
def pyDictGet (v : Json) (k : String) (dflt : Json) : Except PyExc Json :=
  match v with
  | .obj members => .ok ((dictGetLast members k).getD dflt)
  | _ => .error (.attributeError ("\x27" ++ pyTypeName v ++ "\x27 object has no attribute \x27get\x27"))

/-- Python `s.lower()` restricted to the ASCII case mapping. -/
def pyLower (s : String) : String := String.mk (s.toList.map Char.toLower)

/-- The whitespace set of Python's default `str.strip()`. -/
def isPySpace (c : Char) : Bool :=
  c == ' ' || c == '\t' || c == '\n' || c == '\r' || c == '\x0b' || c == '\x0c'

/-- Python `s.strip()`: drop leading and trailing whitespace. -/
def pyStrip (cs : List Char) : List Char :=
  ((cs.dropWhile isPySpace).reverse.dropWhile isPySpace).reverse

/-- Fuel-driven worker for `pyReplace`: each step consumes at least one
input character, so fuel equal to the input length always suffices. -/
def pyReplaceAux (pat repl : List Char) : Nat → List Char → List Char
  | 0, s => s
  | fuel + 1, s =>
    match s with
    | [] => []
    | c :: rest =>
      if pat ≠ [] ∧ pat.isPrefixOf (c :: rest) then
        repl ++ pyReplaceAux pat repl fuel ((c :: rest).drop pat.length)
      else c :: pyReplaceAux pat repl fuel rest

/-- Python `s.replace(pat, repl)` for a non-empty `pat`: scan left to right,
replacing non-overlapping occurrences.  (For `pat = []` Python interleaves
`repl` everywhere; the modelled call sites only use non-empty patterns.) -/
def pyReplace (pat repl s : List Char) : List Char :=
  pyReplaceAux pat repl s.length s

/-- Python `s.find(c)` for a single character: index of the first
occurrence, `none` standing for `-1`. -/
def pyFind (c : Char) : List Char → Option Nat
  | [] => none
  | x :: rest => if x == c then some 0 else (pyFind c rest).map (· + 1)

/-- Python `s.rfind(c)` for a single character: index of the last
occurrence, `none` standing for `-1`. -/
def pyRFind (c : Char) (cs : List Char) : Option Nat :=
  (pyFind c cs.reverse).map (fun i => cs.length - 1 - i)

/-- Python `s[start:stop]` for in-range non-negative bounds. -/
def pySlice (cs : List Char) (start stop : Nat) : List Char :=
  (cs.drop start).take (stop - start)

/-- Python `str(v)` as interpolated into f-strings: exact for strings and
scalars; container rendering abbreviated (the modelled call site only
consults the truthiness of a message built around it, which the fixed
template already makes non-empty). -/
def pyStr : Json → String
  | .null => "None"
  | .bool true => "True"
  | .bool false => "False"
  | .num m e _ => if e = 0 then toString m else toString m ++ "e" ++ toString e
  | .nan => "nan"
  | .infinity false => "inf"
  | .infinity true => "-inf"
  | .str s => s
  | .arr _ => "[...]"
  | .obj _ => "\x7b...\x7d"

/-- Embedding of `MCPClient.tool_arg_map` (client.py lines 26-29): the map
from tool name to its required arguments, used for pre-execution
validation. -/
def tool_arg_map : List (String × List String) :=
  [("query_knowledge_base", ["query_text"]), ("get_professor_details", ["name"])]

/-- Python `self.tool_arg_map.get(tool_name)`: string keys hit the map,
other hashable values miss, unhashable values raise `TypeError`. -/
def toolArgMapGet (tool_name : Json) : Except PyExc (Option (List String)) :=
  match tool_name with
  | .str n => .ok (tool_arg_map.lookup n)
  | .arr _ => .error (.typeError "unhashable type: \x27list\x27")
  | .obj _ => .error (.typeError "unhashable type: \x27dict\x27")
  | _ => .ok none

/-- Embedding of the argument check
`all(arg in tool_args and tool_args[arg] for arg in required_args)`
(client.py line 233): short-circuit conjunction of presence and truthiness
over the required argument names. -/
def allArgsOk (tool_args : Json) : List String → Except PyExc Bool
  | [] => .ok true
  | a :: rest => do
    let present ← pyIn a tool_args
    if present then
      let v ← pyGetItem tool_args a
      if pyTruthy v then allArgsOk tool_args rest else .ok false
    else .ok false

/-- The characters of the `json`-tagged code-fence marker, stripped first by
the extractor. -/
def fence_json : List Char := "```json".toList

/-- The characters of the bare code-fence marker. -/
def fence : List Char := "```".toList

/-- Embedding of `MCPClient._extract_tool_call` (client.py lines 277-292):
strip fence markers and whitespace, slice from the first `\x7b` to the last
`\x7d`, parse the slice as JSON, and accept only values carrying both a
`tool` and an `arguments` key; every failure — including any exception,
caught by the bare `except` — yields `none`. -/
def _extract_tool_call (text : List Char) : Option Json :=
  let t := pyStrip (pyReplace fence [] (pyReplace fence_json [] text))
  match pyFind obr t with
  | none => none
  | some start =>
    let stop : Nat :=
      match pyRFind cbr t with
      | some j => j + 1
      | none => 0
    if start < stop then
      match Json.parse (pySlice t start stop) with
      | none => none
      | some tool_call =>
        match pyIn "tool" tool_call, pyIn "arguments" tool_call with
        | .ok true, .ok true => some tool_call
        | _, _ => none
    else none

/-- Embedding of the error / no-results detection block of
`chat_with_mistral` (client.py lines 246-259): the value of `is_error`
computed from the raw payload.  `json.JSONDecodeError` is swallowed
(`is_error` stays false); `.lower()` on a non-string `error` value raises
`AttributeError`, which escapes this block into the surrounding
`except Exception` handler. -/
def detect_error (raw_data : String) : Except PyExc Bool :=
  match Json.parse raw_data.toList with
  | none => .ok false
  | some data_json =>
    match data_json with
    | .obj members =>
      match (dictGetLast members "error").getD (.str "") with
      | .str s =>
        let error_message := pyLower s
        .ok (members.any (fun kv => kv.1 == "error")
          || isSubListOf "not found".toList error_message.toList)
      | v => .error (.attributeError ("\x27" ++ pyTypeName v ++ "\x27 object has no attribute \x27lower\x27"))
    | .arr elems => .ok (elems.length == 0)
    | _ => .ok false

/-- Which sampling configuration a generation-backend call uses
(tool-selection, grounded response, or casual chat — the three
temperature/token profiles of config.py). -/
inductive GenKind where
  | toolSelection
  | response
  | chat

/-- One observable call to the generation backend (`ollama.generate`). -/
structure GenCall where
  prompt : String
  kind : GenKind

/-- The tool-selection prompt of `chat_with_mistral`
(client.py lines 193-208). -/
def decision_prompt (user_message : String) : String :=
  "Analyze the user\x27s question and select the single BEST tool to answer it.\n\nTools:\n1. get_latest_news - news, events, festivals, workshops\n2. get_college_notifications - official notices, announcements, deadlines\n3. query_knowledge_base - search syllabus,academic topics,clubs,research and development,exams, rules and regulations, governance structure\n  (requires \"query_text\")\n4. get_professor_details - professor info (requires \"name\")\n5. none - greetings, casual chat\n\nQuestion: \"" ++ user_message ++ "\"\n\nRespond ONLY with a JSON object. Do not include any text, thoughts, or markdown code fences (```json).\nThe JSON must follow this structure: \x7b\"tool\": \"tool_name\", \"arguments\": \x7b\"arg1\": \"value1\", ...\x7d\x7d\n\nJSON:"

/-- The grounded rendering prompt of `make_natural_response`
(client.py lines 121-138), pairing the literal user query with the literal
retrieved payload. -/
def natural_response_prompt (user_query raw_data : String) : String :=
  "You are BMSCE Assistant, a friendly AI for BMS College students.\n\nStudent asked: \"" ++ user_query ++ "\"\n\nData retrieved:\n" ++ raw_data ++ "\n\nPresent this naturally and conversationally. Use neutral pronouns (they/them) for people.\n\nGuidelines:\n- Be warm and helpful like a senior student\n- Use clear numbering or bullet points for lists\n- **Crucially: Only include coherent, well-formed contact details (Name, Role, Contact). Aggressively filter out and discard any fragmented, garbled, or unformatted text fragments.**\n- Keep it concise but informative\n- Use emojis sparingly\n- End with a friendly note if appropriate\n\nYour response:"

/-- The casual-chat prompt of `_handle_chat_fallback`
(client.py lines 172-181), built from the user message and fixed
instructions only. -/
def chat_prompt (user_message : String) : String :=
  "You are BMSCE Assistant for BMS College students.\n\n    User: " ++ user_message ++ "\n\n    Respond warmly and concisely. \n    No markdown formatting. Do not use any Markdown formatting like bolding (`**...**`) or italics.\n    Focus ONLY on answering the user\x27s message.\n    CRITICAL RULE: If you are asked for specific information (names, dates, etc.) and don\x27t know it, state clearly that you do not have that specific information. DO NOT fabricate.\n\n    Response:"

/-- The fixed refusal string printed by `_handle_chat_fallback` when a tool
failed (client.py line 153). -/
def static_refusal_text : String :=
  "I don\x27t have that specific information in my database. Can I help with anything else? 😊"

/-- How a turn's user-facing reply is produced: a grounded generation call
pairing the user query with retrieved data, an ungrounded casual-chat
generation call, or the fixed non-generative refusal. -/
inductive RenderAction where
  | grounded (user_query raw_data : String)
  | openChat (user_message : String)
  | staticRefusal

/-- The generation-backend calls a render action performs: the grounded and
chat paths each make exactly one call with their prompt; the static refusal
makes none. -/
def renderGenCalls : RenderAction → List GenCall
  | .grounded q d => [⟨natural_response_prompt q d, .response⟩]
  | .openChat u => [⟨chat_prompt u, .chat⟩]
  | .staticRefusal => []

/-- Embedding of `MCPClient._handle_chat_fallback` (client.py lines
143-184): with a truthy `error_message` the fixed refusal text is printed
and the function returns before any LLM call; otherwise the casual-chat
generation call is made.  `none` models the Python default
`error_message=None`. -/
def _handle_chat_fallback (user_message : String) (error_message : Option String) : RenderAction :=
  match error_message with
  | some e => if e ≠ "" then .staticRefusal else .openChat user_message
  | none => .openChat user_message

/-- Embedding of `MCPClient.make_natural_response` (client.py lines
117-140): the grounded rendering call for a user query and raw payload. -/
def make_natural_response (user_query raw_data : String) : RenderAction :=
  .grounded user_query raw_data

/-- Result of `process_tool_call` as seen by the orchestrator: the raw text
payload, or the message of the exception the call raised (connection lost,
tool execution failure). -/
inductive ToolResult where
  | ok (raw : String)
  | exn (message : String)

/-- The observable outcome of one `chat_with_mistral` turn: whether and with
what the Tool Invoker (`process_tool_call`) was called, and which render
action produced the reply. -/
structure TurnResult where
  invoked : Option (Json × Json)
  action : RenderAction

/-- Embedding of the argument-validation condition of `chat_with_mistral`
(client.py lines 232-233): the registry lookup
`self.tool_arg_map.get(tool_name)` followed by
`required_args and not all(arg in tool_args and tool_args[arg] for arg in
required_args)`. -/
def validation_fails (tool_name tool_args : Json) : Except PyExc Bool := do
  let required_args ← toolArgMapGet tool_name
  match required_args with
  | some (a :: rest) => do
    let ok ← allArgsOk tool_args (a :: rest)
    pure (!ok)
  | _ => pure false

/-- Embedding of `MCPClient.chat_with_mistral` (client.py lines 187-275),
parametrised by the completion text the tool-selection call returned
(`decision_response`) and by the behaviour of the external tool surface
(`call_tool`).  An `Except.error` is a Python exception escaping the
method, reachable only from argument validation on malformed decisions. -/
def chat_with_mistral (user_message decision_response : String)
    (call_tool : Json → Json → ToolResult) : Except PyExc TurnResult := do
  match _extract_tool_call decision_response.toList with
  | none => return ⟨none, _handle_chat_fallback user_message none⟩
  | some tool_call =>
    let toolField ← pyDictGet tool_call "tool" .null
    if jsonEqStr toolField "none" then
      return ⟨none, _handle_chat_fallback user_message none⟩
    else
      let tool_name := toolField
      let tool_args ← pyDictGet tool_call "arguments" (.obj [])
      let validationFails ← validation_fails tool_name tool_args
      if validationFails then
        return ⟨none, _handle_chat_fallback user_message
          (some ("Tool selection failed due to missing arguments for " ++ pyStr tool_name ++ "."))⟩
      else
        match call_tool tool_name tool_args with
        | .exn e =>
          return ⟨some (tool_name, tool_args),
            make_natural_response user_message ("Tool execution failed: " ++ e)⟩
        | .ok raw_data =>
          match detect_error raw_data with
          | .error exc =>
            return ⟨some (tool_name, tool_args),
              make_natural_response user_message ("Tool execution failed: " ++ exc.toMessage)⟩
          | .ok true =>
            return ⟨some (tool_name, tool_args), _handle_chat_fallback user_message (some raw_data)⟩
          | .ok false =>
            return ⟨some (tool_name, tool_args), make_natural_response user_message raw_data⟩

/-- Modelled from the spec: the tagged outcome variants of the Result
Classifier (spec section 3, `ToolOutcome`).  The source computes only a
boolean `is_error`; this type exists to state the spec's claims in its own
vocabulary and compare them with the code's behaviour. -/
inductive SpecOutcome where
  | success (payload : String)
  | emptyResult
  | explicitError (message : String)
  | unparsablePayload (raw : String)

/-- Modelled from the spec: the Result Classifier algorithm of spec
section 4.4.  Parse the payload; on failure return `UnparsablePayload`; a
mapping with an `error` key of non-empty content (or a case-insensitive
`not found` substring in that field) is `ExplicitError`; an empty sequence
is `EmptyResult`; otherwise `Success` carrying the original raw text. -/
def spec_classifier (raw : String) : SpecOutcome :=
  match Json.parse raw.toList with
  | none => .unparsablePayload raw
  | some (.obj members) =>
    match dictGetLast members "error" with
    | some (.str s) =>
      if s ≠ "" || isSubListOf "not found".toList (pyLower s).toList then .explicitError s
      else .success raw
    | some v => if pyTruthy v then .explicitError (pyStr v) else .success raw
    | none => .success raw
  | some (.arr elems) => if elems.isEmpty then .emptyResult else .success raw
  | some _ => .success raw

/-- A key answers `k in d` exactly when the last-binding lookup finds it. -/
theorem any_key_eq_isSome (ms : List (String × Json)) (k : String) :
    ms.any (fun kv => kv.1 == k) = (dictGetLast ms k).isSome := by
  induction ms with
  | nil => rfl
  | cons kv rest ih =>
    simp only [List.any_cons, dictGetLast, ih]
    cases h : dictGetLast rest k with
    | some v => simp
    | none => cases hk : kv.1 == k <;> simp [hk]

/-- On a dict argument object the validation conjunction never raises and
computes presence-and-truthiness of every required name. -/
theorem allArgsOk_obj (args : List (String × Json)) (req : List String) :
    allArgsOk (.obj args) req
      = .ok (req.all fun a => (dictGetLast args a).isSome
          && pyTruthy ((dictGetLast args a).getD .null)) := by
  induction req with
  | nil => rfl
  | cons a rest ih =>
    simp only [allArgsOk, pyIn, List.all_cons, Bind.bind, Except.bind, any_key_eq_isSome]
    cases h : dictGetLast args a with
    | none => simp
    | some v =>
      simp only [Option.isSome_some, Option.getD_some, if_true, pyGetItem, h, Bool.true_and]
      cases ht : pyTruthy v
      · simp [ht]
      · simp [ht, ih]

/-- `pyFind` really points at an occurrence of the character. -/
theorem pyFind_drop_head (c : Char) (l : List Char) :
    ∀ i : Nat, pyFind c l = some i → (l.drop i).head? = some c := by
  induction l with
  | nil => intro i h; simp [pyFind] at h
  | cons x rest ih =>
    intro i h
    simp only [pyFind] at h
    by_cases hx : (x == c) = true
    · rw [if_pos hx] at h
      obtain rfl : (0 : Nat) = i := Option.some.inj h
      have hxc : x = c := by simpa using hx
      simp [hxc]
    · rw [if_neg hx] at h
      obtain ⟨j, hj, rfl⟩ := Option.map_eq_some'.mp h
      rw [List.drop_succ_cons]
      exact ih j hj

/-- A successful object-member scan always yields an object value. -/
theorem scanMembers_isObj : ∀ (fuel : Nat) (cs : List Char) (acc : List (String × Json))
    (v : Json) (r : List Char),
    scanMembers fuel cs acc = some (v, r) → ∃ ms, v = Json.obj ms := by
  intro fuel
  induction fuel with
  | zero =>
    intro cs acc v r h
    simp [scanMembers] at h
  | succ fuel ih =>
    intro cs acc v r h
    simp only [scanMembers] at h
    split at h
    · split at h
      · exact absurd h (by simp)
      · split at h
        · split at h
          · exact absurd h (by simp)
          · split at h
            · exact absurd h (by simp)
            · split at h
              · exact ih _ _ _ _ h
              · split at h
                · obtain ⟨hv, _⟩ := Prod.mk.injEq .. ▸ Option.some.inj h
                  exact ⟨_, hv.symm⟩
                · exact absurd h (by simp)
        · exact absurd h (by simp)
    · exact absurd h (by simp)

/-- A successful value scan of text beginning with `\x7b` yields an object. -/
theorem scanValue_obr_isObj (fuel : Nat) (cs : List Char) (v : Json) (r : List Char)
    (h : scanValue fuel (obr :: cs) = some (v, r)) : ∃ ms, v = Json.obj ms := by
  cases fuel with
  | zero => simp [scanValue] at h
  | succ fuel =>
    simp only [scanValue, beq_self_eq_true, if_true] at h
    split at h
    · exact absurd h (by simp)
    · split at h
      · obtain ⟨hv, _⟩ := Prod.mk.injEq .. ▸ Option.some.inj h
        exact ⟨_, hv.symm⟩
      · exact scanMembers_isObj _ _ _ _ _ h

/-- A payload whose text begins with `\x7b` parses, if at all, to an
object. -/
theorem parse_obr_isObj (cs : List Char) (v : Json)
    (h : Json.parse (obr :: cs) = some v) : ∃ ms, v = Json.obj ms := by
  have hskip : skipWs (obr :: cs) = obr :: cs := rfl
  simp only [Json.parse, hskip] at h
  cases hs : scanValue ((obr :: cs).length + 1) (obr :: cs) with
  | none => rw [hs] at h; exact absurd h (by simp)
  | some pr =>
    obtain ⟨w, rest⟩ := pr
    rw [hs] at h
    dsimp only at h
    by_cases he : skipWs rest = []
    · rw [if_pos he] at h
      obtain rfl : w = v := Option.some.inj h
      exact scanValue_obr_isObj _ _ _ _ hs
    · rw [if_neg he] at h
      exact absurd h (by simp)

/-- Bind on a successful `Except` computation reduces to the continuation. -/
@[simp] theorem except_bind_ok {α β : Type} (a : α) (f : α → Except PyExc β) :
    (Except.ok a >>= f) = f a := rfl

/-- Bind on a failed `Except` computation propagates the exception. -/
@[simp] theorem except_bind_err {α β : Type} (e : PyExc) (f : α → Except PyExc β) :
    ((Except.error e : Except PyExc α) >>= f) = Except.error e := rfl

/-- Pure on `Except` is `ok`. -/
@[simp] theorem except_pure {α : Type} (a : α) :
    (pure a : Except PyExc α) = Except.ok a := rfl

/-- The validation-failure message handed to the fallback is never the
empty string, whatever the tool name rendered into it. -/
theorem validation_msg_ne_empty (s : String) :
    ("Tool selection failed due to missing arguments for " ++ s ++ ".") ≠ "" := by
  intro h
  have hlen := congrArg String.length h
  rw [String.length_append, String.length_append] at hlen
  have h1 : (0 : Nat) < ("Tool selection failed due to missing arguments for ").length := by
    decide
  have h2 : ("" : String).length = 0 := rfl
  rw [h2] at hlen
  omega

/-- Path lemma: a decision extracted as an object whose `tool` field is not
the string `none` and whose validation gate fails is routed to the fallback
carrying the missing-arguments message; the Tool Invoker is not called. -/
theorem chat_with_mistral_reject (u d : String) (tool : Json → Json → ToolResult)
    (tc : List (String × Json)) (tname args : Json)
    (hext : _extract_tool_call d.toList = some (.obj tc))
    (htool : dictGetLast tc "tool" = some tname)
    (hnn : jsonEqStr tname "none" = false)
    (hargs : dictGetLast tc "arguments" = some args)
    (hval : validation_fails tname args = .ok true) :
    chat_with_mistral u d tool
      = .ok ⟨none, _handle_chat_fallback u
          (some ("Tool selection failed due to missing arguments for " ++ pyStr tname ++ "."))⟩ := by
  simp only [chat_with_mistral, hext, pyDictGet, htool, hargs, Option.getD_some,
    except_bind_ok, hnn, hval, except_pure]
  simp

/-- Path lemma: a decision extracted as an object whose `tool` field is not
the string `none` and whose validation gate passes invokes the tool with the
extracted name and arguments, and renders according to the tool result and
the error-detection block. -/
theorem chat_with_mistral_invoke (u d : String) (tool : Json → Json → ToolResult)
    (tc : List (String × Json)) (tname args : Json)
    (hext : _extract_tool_call d.toList = some (.obj tc))
    (htool : dictGetLast tc "tool" = some tname)
    (hnn : jsonEqStr tname "none" = false)
    (hargs : dictGetLast tc "arguments" = some args)
    (hval : validation_fails tname args = .ok false) :
    chat_with_mistral u d tool
      = .ok ⟨some (tname, args),
          match tool tname args with
          | .exn e => make_natural_response u ("Tool execution failed: " ++ e)
          | .ok raw_data =>
            match detect_error raw_data with
            | .error exc =>
              make_natural_response u ("Tool execution failed: " ++ exc.toMessage)
            | .ok true => _handle_chat_fallback u (some raw_data)
            | .ok false => make_natural_response u raw_data⟩ := by
  simp only [chat_with_mistral, hext, pyDictGet, htool, hargs, Option.getD_some,
    except_bind_ok, hnn, hval, except_pure]
  simp only [Bool.false_eq_true, if_false]
  cases tool tname args with
  | exn e => rfl
  | ok raw_data =>
    dsimp only
    cases detect_error raw_data with
    | error exc => rfl
    | ok b => cases b <;> rfl

/-- A payload parsing to a mapping whose `error` key holds a string — even
the empty string — makes the error-detection block flag it. -/
theorem detect_error_obj_err_str (raw : String) (ms : List (String × Json)) (s : String)
    (hparse : Json.parse raw.toList = some (.obj ms))
    (herr : dictGetLast ms "error" = some (.str s)) :
    detect_error raw = .ok true := by
  have hany : ms.any (fun kv => kv.1 == "error") = true := by
    rw [any_key_eq_isSome, herr]
    rfl
  simp only [detect_error, hparse, herr, Option.getD_some, hany, Bool.true_or]

/-- A payload parsing to the empty sequence makes the error-detection block
flag it. -/
theorem detect_error_empty_arr (raw : String)
    (hparse : Json.parse raw.toList = some (.arr [])) :
    detect_error raw = .ok true := by
  simp only [detect_error, hparse]
  rfl

/-- A flagged payload is never the empty string (the empty string does not
parse). -/
theorem detect_error_true_ne_empty (raw : String)
    (h : detect_error raw = .ok true) : raw ≠ "" := by
  intro heq
  rw [heq] at h
  have hfalse : detect_error "" = .ok false := rfl
  rw [hfalse] at h
  simp at h

/-- A truthy error message sends the fallback to the fixed refusal. -/
theorem fallback_static_of_ne_empty (u e : String) (h : e ≠ "") :
    _handle_chat_fallback u (some e) = .staticRefusal := by
  simp [_handle_chat_fallback, h]

/-- Path lemma: when no decision is extracted the turn goes to open chat
without invoking any tool. -/
theorem chat_with_mistral_open_none (u d : String) (tool : Json → Json → ToolResult)
    (hext : _extract_tool_call d.toList = none) :
    chat_with_mistral u d tool = .ok ⟨none, .openChat u⟩ := by
  simp only [chat_with_mistral, hext]
  rfl

/-- Path lemma: a decision whose `tool` field is the string `none` goes to
open chat without invoking any tool. -/
theorem chat_with_mistral_open_toolNone (u d : String) (tool : Json → Json → ToolResult)
    (tc : List (String × Json))
    (hext : _extract_tool_call d.toList = some (.obj tc))
    (htool : dictGetLast tc "tool" = some (.str "none")) :
    chat_with_mistral u d tool = .ok ⟨none, .openChat u⟩ := by
  simp only [chat_with_mistral, hext, pyDictGet, htool, Option.getD_some, except_bind_ok]
  simp [jsonEqStr, _handle_chat_fallback]

/-- A slice whose start points at an occurrence of `c` begins with `c`. -/
theorem pySlice_head (t : List Char) (start stop : Nat) (c : Char)
    (hh : (t.drop start).head? = some c) (hlt : start < stop) :
    ∃ tail, pySlice t start stop = c :: tail := by
  unfold pySlice
  cases hd : t.drop start with
  | nil => rw [hd] at hh; simp at hh
  | cons x tail =>
    rw [hd] at hh
    obtain rfl : x = c := by simpa using hh
    obtain ⟨k, hk⟩ : ∃ k, stop - start = k + 1 := ⟨stop - start - 1, by omega⟩
    rw [hk]
    exact ⟨tail.take k, rfl⟩

/-- C9: the Decision Extractor is total: every Python exception along the
way is caught by the bare `except` and folded into `None`, and a returned
decision is always a parsed JSON mapping containing both a `tool` and an
`arguments` key. -/
theorem C9_extractor_total (t : List Char) :
    _extract_tool_call t = none ∨
    ∃ ms : List (String × Json), _extract_tool_call t = some (Json.obj ms) ∧
      ms.any (fun kv => kv.1 == "tool") = true ∧
      ms.any (fun kv => kv.1 == "arguments") = true := by
  simp only [_extract_tool_call]
  cases hf : pyFind obr (pyStrip (pyReplace fence [] (pyReplace fence_json [] t))) with
  | none => exact Or.inl rfl
  | some start =>
    dsimp only
    cases hr : pyRFind cbr (pyStrip (pyReplace fence [] (pyReplace fence_json [] t))) with
    | none =>
      dsimp only
      rw [if_neg (by omega)]
      exact Or.inl rfl
    | some j =>
      dsimp only
      by_cases hlt : start < j + 1
      · rw [if_pos hlt]
        obtain ⟨tail, hslice⟩ := pySlice_head _ start (j + 1) obr (pyFind_drop_head _ _ _ hf) hlt
        rw [hslice]
        cases hp : Json.parse (obr :: tail) with
        | none => exact Or.inl rfl
        | some tool_call =>
          obtain ⟨ms, rfl⟩ := parse_obr_isObj _ _ hp
          simp only [pyIn]
          cases h1 : ms.any (fun kv => kv.1 == "tool") with
          | false => exact Or.inl rfl
          | true =>
            cases h2 : ms.any (fun kv => kv.1 == "arguments") with
            | false => exact Or.inl rfl
            | true => exact Or.inr ⟨ms, rfl, h1, h2⟩
      · rw [if_neg hlt]
        exact Or.inl rfl

/-- Both registry entries carry a non-empty required-argument list. -/
theorem tool_arg_map_lookup_nonempty (n : String) (req : List String)
    (h : tool_arg_map.lookup n = some req) : req ≠ [] := by
  simp only [tool_arg_map, List.lookup] at h
  split at h
  · obtain rfl := Option.some.inj h
    simp
  · split at h
    · obtain rfl := Option.some.inj h
      simp
    · simp at h

/-- C2: at the failing input — a well-formed `get_professor_details`
decision whose invocation raises a connection exception — the orchestrator
catches the exception but then invokes the generation backend with the
failure content: the render action is a grounded generation call pairing
the user question with `Tool execution failed: Connection lost`, not the
fixed non-generative refusal the spec requires. -/
theorem C2_exception_reprompts_generator :
    chat_with_mistral "who is prof Rao"
        "\x7b\"tool\": \"get_professor_details\", \"arguments\": \x7b\"name\": \"Rao\"\x7d\x7d"
        (fun _ _ => .exn "Connection lost")
      = .ok ⟨some (.str "get_professor_details", .obj [("name", .str "Rao")]),
          .grounded "who is prof Rao" "Tool execution failed: Connection lost"⟩ ∧
    renderGenCalls (.grounded "who is prof Rao" "Tool execution failed: Connection lost")
      = [⟨natural_response_prompt "who is prof Rao" "Tool execution failed: Connection lost",
          .response⟩] :=
  ⟨rfl, rfl⟩

/-- C3 counterexample: for the payload `\x7b"error": ""\x7d` — a mapping whose
`error` key holds the empty string — the spec's classifier yields `Success`
with the original raw text, but the code flags it as an error and renders
the fixed refusal instead of proceeding to grounded rendering. -/
theorem C3_counterexample :
    spec_classifier "\x7b\"error\": \"\"\x7d" = .success "\x7b\"error\": \"\"\x7d" ∧
    detect_error "\x7b\"error\": \"\"\x7d" = .ok true ∧
    chat_with_mistral "any events?"
        "\x7b\"tool\": \"get_latest_news\", \"arguments\": \x7b\x7d\x7d"
        (fun _ _ => .ok "\x7b\"error\": \"\"\x7d")
      = .ok ⟨some (.str "get_latest_news", .obj []), .staticRefusal⟩ :=
  ⟨rfl, rfl, rfl⟩

/-- C3 amended: a payload parsing to a mapping whose `error` key holds a
string — including the empty string — is flagged by the error-detection
block (key presence decides, not non-empty content), so the turn renders
the fixed refusal with no render-path generation call rather than
proceeding to grounded rendering. -/
theorem C3_amended_empty_error_refused (u d raw : String)
    (tc : List (String × Json)) (tname args : Json) (ms : List (String × Json)) (s : String)
    (hext : _extract_tool_call d.toList = some (.obj tc))
    (htool : dictGetLast tc "tool" = some tname)
    (hnn : jsonEqStr tname "none" = false)
    (hargs : dictGetLast tc "arguments" = some args)
    (hval : validation_fails tname args = .ok false)
    (hparse : Json.parse raw.toList = some (.obj ms))
    (herr : dictGetLast ms "error" = some (.str s)) :
    chat_with_mistral u d (fun _ _ => .ok raw)
      = .ok ⟨some (tname, args), .staticRefusal⟩ ∧
    renderGenCalls .staticRefusal = [] := by
  have hdet := detect_error_obj_err_str raw ms s hparse herr
  have hne := detect_error_true_ne_empty raw hdet
  have hbase := chat_with_mistral_invoke u d (fun _ _ => .ok raw) tc tname args
    hext htool hnn hargs hval
  rw [hbase]
  dsimp only
  rw [hdet, fallback_static_of_ne_empty u raw hne]
  exact ⟨rfl, rfl⟩

/-- C3 amended, witness: the empty-string-error payload concretely drives a
validated `get_latest_news` turn into the fixed refusal. -/
theorem C3_amended_refused_witness :
    chat_with_mistral "college fest dates?"
        "\x7b\"tool\": \"get_latest_news\", \"arguments\": \x7b\x7d\x7d"
        (fun _ _ => .ok "\x7b\"error\": \"\"\x7d")
      = .ok ⟨some (.str "get_latest_news", .obj []), .staticRefusal⟩ :=
  (C3_amended_empty_error_refused "college fest dates?"
      "\x7b\"tool\": \"get_latest_news\", \"arguments\": \x7b\x7d\x7d"
      "\x7b\"error\": \"\"\x7d"
      [("tool", .str "get_latest_news"), ("arguments", .obj [])]
      (.str "get_latest_news") (.obj []) [("error", .str "")] ""
      rfl rfl rfl rfl rfl rfl rfl).1

/-- C4 counterexample: the decision proposes the unknown tool `search_web`;
the claim says validation fails and the Tool Invoker is never reached, but
the code's registry lookup returns `None` for unknown names, validation
passes, and the invocation reaches the Tool Invoker and is even rendered as
a grounded answer. -/
theorem C4_counterexample :
    tool_arg_map.lookup "search_web" = none ∧
    chat_with_mistral "find recent AI papers"
        "\x7b\"tool\": \"search_web\", \"arguments\": \x7b\x7d\x7d"
        (fun _ _ => .ok "result text")
      = .ok ⟨some (.str "search_web", .obj []),
          .grounded "find recent AI papers" "result text"⟩ :=
  ⟨rfl, rfl⟩

/-- C4 amended: argument validation fails only for tool names listed in the
required-argument registry; an extracted decision whose tool name is
neither `none` nor a registry key passes validation and its invocation
reaches the Tool Invoker. -/
theorem C4_amended_unknown_tool_invoked (u d : String) (tool : Json → Json → ToolResult)
    (tc : List (String × Json)) (n : String) (args : Json)
    (hext : _extract_tool_call d.toList = some (.obj tc))
    (htool : dictGetLast tc "tool" = some (.str n))
    (hnn : n ≠ "none")
    (hargs : dictGetLast tc "arguments" = some args)
    (hunk : tool_arg_map.lookup n = none) :
    ∃ act, chat_with_mistral u d tool = .ok ⟨some (.str n, args), act⟩ := by
  have hval : validation_fails (.str n) args = .ok false := by
    simp only [validation_fails, toolArgMapGet, hunk, except_bind_ok]
    rfl
  have hnn2 : jsonEqStr (.str n) "none" = false := by
    simp [jsonEqStr, hnn]
  exact ⟨_, chat_with_mistral_invoke u d tool tc (.str n) args hext htool hnn2 hargs hval⟩

/-- C4 amended, witness: the unknown tool name `fetch_timetable` passes
validation and is invoked with its extracted arguments. -/
theorem C4_amended_unknown_tool_witness :
    ∃ act, chat_with_mistral "exam timetable?"
        "\x7b\"tool\": \"fetch_timetable\", \"arguments\": \x7b\"sem\": \"5\"\x7d\x7d"
        (fun _ _ => .ok "tt")
      = .ok ⟨some (.str "fetch_timetable", .obj [("sem", .str "5")]), act⟩ :=
  C4_amended_unknown_tool_invoked "exam timetable?"
    "\x7b\"tool\": \"fetch_timetable\", \"arguments\": \x7b\"sem\": \"5\"\x7d\x7d"
    (fun _ _ => .ok "tt")
    [("tool", .str "fetch_timetable"), ("arguments", .obj [("sem", .str "5")])]
    "fetch_timetable" (.obj [("sem", .str "5")])
    rfl rfl (by decide) rfl rfl

/-- C5: for a registry-listed tool, a decision whose arguments mapping
leaves a required key absent or bound to the empty string is rejected by the
validation gate: whatever the tool surface would do, it is never invoked,
and the fixed refusal is rendered with no render-path generation call. -/
theorem C5_missing_required_rejected (u d : String) (tool : Json → Json → ToolResult)
    (tc : List (String × Json)) (n : String) (req : List String)
    (args : List (String × Json)) (a : String)
    (hext : _extract_tool_call d.toList = some (.obj tc))
    (htool : dictGetLast tc "tool" = some (.str n))
    (hnn : n ≠ "none")
    (hargs : dictGetLast tc "arguments" = some (.obj args))
    (hreq : tool_arg_map.lookup n = some req)
    (ha : a ∈ req)
    (hmiss : dictGetLast args a = none ∨ dictGetLast args a = some (.str "")) :
    chat_with_mistral u d tool = .ok ⟨none, .staticRefusal⟩ ∧
    renderGenCalls .staticRefusal = [] := by
  have hne := tool_arg_map_lookup_nonempty n req hreq
  obtain ⟨a0, rest, rfl⟩ := List.exists_cons_of_ne_nil hne
  have hbad : ((dictGetLast args a).isSome
      && pyTruthy ((dictGetLast args a).getD .null)) = false := by
    rcases hmiss with hm | hm <;> simp [hm, pyTruthy]
  have hall : ((a0 :: rest).all
      fun x => (dictGetLast args x).isSome
        && pyTruthy ((dictGetLast args x).getD .null)) = false := by
    rw [Bool.eq_false_iff]
    intro hcontra
    rw [List.all_eq_true] at hcontra
    exact absurd (hcontra a ha) (by simp [hbad])
  have hval : validation_fails (.str n) (.obj args) = .ok true := by
    simp only [validation_fails, toolArgMapGet, hreq, except_bind_ok, allArgsOk_obj, hall]
    rfl
  have hnn2 : jsonEqStr (.str n) "none" = false := by
    simp [jsonEqStr, hnn]
  have hrej := chat_with_mistral_reject u d tool tc (.str n) (.obj args)
    hext htool hnn2 hargs hval
  rw [hrej, fallback_static_of_ne_empty u _ (validation_msg_ne_empty (pyStr (.str n)))]
  exact ⟨rfl, rfl⟩

/-- C5, witness: the spec's scenario — `get_professor_details` with empty
arguments — is rejected and refused without the tool surface being
consulted. -/
theorem C5_missing_required_witness :
    "name" ∈ ["name"] ∧
    chat_with_mistral "who is the professor?"
        "\x7b\"tool\": \"get_professor_details\", \"arguments\": \x7b\x7d\x7d"
        (fun _ _ => .ok "ignored")
      = .ok ⟨none, .staticRefusal⟩ :=
  ⟨by decide,
    (C5_missing_required_rejected "who is the professor?"
      "\x7b\"tool\": \"get_professor_details\", \"arguments\": \x7b\x7d\x7d"
      (fun _ _ => .ok "ignored")
      [("tool", .str "get_professor_details"), ("arguments", .obj [])]
      "get_professor_details" ["name"] [] "name"
      rfl rfl (by decide) rfl rfl (by decide) (Or.inl rfl)).1⟩

/-- C6: a payload parsing as a mapping with a non-empty string `error`
field, or as the empty sequence, is never classified `Success`: the
spec-level classifier is non-`Success`, the code's error detection flags
it, the fixed refusal is rendered, and no render-path generation call is
made for the turn. -/
theorem C6_error_or_empty_never_success (u d raw : String)
    (tc : List (String × Json)) (tname args : Json)
    (hext : _extract_tool_call d.toList = some (.obj tc))
    (htool : dictGetLast tc "tool" = some tname)
    (hnn : jsonEqStr tname "none" = false)
    (hargs : dictGetLast tc "arguments" = some args)
    (hval : validation_fails tname args = .ok false)
    (hbad : (∃ ms s, Json.parse raw.toList = some (.obj ms) ∧
               dictGetLast ms "error" = some (.str s) ∧ s ≠ "") ∨
            Json.parse raw.toList = some (.arr [])) :
    (∀ p, spec_classifier raw ≠ .success p) ∧
    detect_error raw = .ok true ∧
    chat_with_mistral u d (fun _ _ => .ok raw) = .ok ⟨some (tname, args), .staticRefusal⟩ ∧
    renderGenCalls .staticRefusal = [] := by
  have hdet : detect_error raw = .ok true := by
    rcases hbad with ⟨ms, s, hp, he, _⟩ | hp
    · exact detect_error_obj_err_str raw ms s hp he
    · exact detect_error_empty_arr raw hp
  have hne := detect_error_true_ne_empty raw hdet
  have hspec : ∀ p, spec_classifier raw ≠ .success p := by
    intro p
    rcases hbad with ⟨ms, s, hp, he, hs⟩ | hp
    · simp only [spec_classifier, hp, he]
      simp [hs]
    · simp only [spec_classifier, hp]
      simp
  have hbase := chat_with_mistral_invoke u d (fun _ _ => .ok raw) tc tname args
    hext htool hnn hargs hval
  refine ⟨hspec, hdet, ?_, rfl⟩
  rw [hbase]
  dsimp only
  rw [hdet, fallback_static_of_ne_empty u raw hne]

/-- C6, witness: the spec's scenario — an empty-sequence payload `[]` on a
validated `query_knowledge_base` turn — is refused without a generation
call. -/
theorem C6_empty_sequence_witness :
    chat_with_mistral "tell me about clubs"
        "\x7b\"tool\": \"query_knowledge_base\", \"arguments\": \x7b\"query_text\": \"clubs\"\x7d\x7d"
        (fun _ _ => .ok "[]")
      = .ok ⟨some (.str "query_knowledge_base", .obj [("query_text", .str "clubs")]),
          .staticRefusal⟩ :=
  (C6_error_or_empty_never_success "tell me about clubs"
      "\x7b\"tool\": \"query_knowledge_base\", \"arguments\": \x7b\"query_text\": \"clubs\"\x7d\x7d"
      "[]"
      [("tool", .str "query_knowledge_base"), ("arguments", .obj [("query_text", .str "clubs")])]
      (.str "query_knowledge_base") (.obj [("query_text", .str "clubs")])
      rfl rfl rfl rfl rfl (Or.inr rfl)).2.2.1

/-- C8: when no decision is extracted, or the extracted decision selects
the tool `none`, the turn takes the open-chat path: no tool invocation, no
refusal, and the render phase is exactly one generation call whose prompt is
built from the user message and fixed instructions only. -/
theorem C8_openchat_path (u d : String) (tool : Json → Json → ToolResult)
    (h : _extract_tool_call d.toList = none ∨
         ∃ tc, _extract_tool_call d.toList = some (.obj tc) ∧
           dictGetLast tc "tool" = some (.str "none")) :
    chat_with_mistral u d tool = .ok ⟨none, .openChat u⟩ ∧
    renderGenCalls (.openChat u) = [⟨chat_prompt u, .chat⟩] := by
  rcases h with h | ⟨tc, hext, htool⟩
  · exact ⟨chat_with_mistral_open_none u d tool h, rfl⟩
  · exact ⟨chat_with_mistral_open_toolNone u d tool tc hext htool, rfl⟩

/-- C8, witness: the spec's scenario — a casual greeting whose decision
text carries no JSON object — goes to open chat. -/
theorem C8_openchat_witness :
    chat_with_mistral "hey, how\x27s it going" "none" (fun _ _ => .ok "unused")
      = .ok ⟨none, .openChat "hey, how\x27s it going"⟩ :=
  (C8_openchat_path "hey, how\x27s it going" "none" (fun _ _ => .ok "unused")
    (Or.inl rfl)).1

/-- C10: a tool name with no entry in the required-argument registry passes
the validation gate unconditionally — whatever the `arguments` value, with
keys present, absent, empty or extra — and the invocation reaches the Tool
Invoker with the extracted name and arguments forwarded unchanged. -/
theorem C10_unregistered_forwarded (u d : String) (tool : Json → Json → ToolResult)
    (tc : List (String × Json)) (n : String) (args : Json)
    (hext : _extract_tool_call d.toList = some (.obj tc))
    (htool : dictGetLast tc "tool" = some (.str n))
    (hnn : n ≠ "none")
    (hargs : dictGetLast tc "arguments" = some args)
    (hreg : tool_arg_map.lookup n = none) :
    validation_fails (.str n) args = .ok false ∧
    ∃ act, chat_with_mistral u d tool = .ok ⟨some (.str n, args), act⟩ := by
  have hval : validation_fails (.str n) args = .ok false := by
    simp only [validation_fails, toolArgMapGet, hreg, except_bind_ok]
    rfl
  have hnn2 : jsonEqStr (.str n) "none" = false := by
    simp [jsonEqStr, hnn]
  exact ⟨hval, _, chat_with_mistral_invoke u d tool tc (.str n) args hext htool hnn2 hargs hval⟩

/-- C10, witness: `get_latest_news` has no registry entry, so a decision
carrying an extra junk argument passes validation unconditionally and the
junk arguments are forwarded unchecked to the Tool Invoker. -/
theorem C10_unregistered_witness :
    validation_fails (.str "get_latest_news") (.obj [("junk", .str "x")]) = .ok false ∧
    ∃ act, chat_with_mistral "news?"
        "\x7b\"tool\": \"get_latest_news\", \"arguments\": \x7b\"junk\": \"x\"\x7d\x7d"
        (fun _ _ => .ok "\x7b\"headline\": \"fest\"\x7d")
      = .ok ⟨some (.str "get_latest_news", .obj [("junk", .str "x")]), act⟩ :=
  C10_unregistered_forwarded "news?"
    "\x7b\"tool\": \"get_latest_news\", \"arguments\": \x7b\"junk\": \"x\"\x7d\x7d"
    (fun _ _ => .ok "\x7b\"headline\": \"fest\"\x7d")
    [("tool", .str "get_latest_news"), ("arguments", .obj [("junk", .str "x")])]
    "get_latest_news" (.obj [("junk", .str "x")])
    rfl rfl (by decide) rfl rfl

/-- C1 counterexample: for a non-JSON payload the spec's classifier yields
`UnparsablePayload`, on which the claim forbids any generation call carrying
retrieved data — but the code proceeds to a grounded generation call pairing
the user question with the raw payload. -/
theorem C1_counterexample :
    spec_classifier "Professor details unavailable"
      = .unparsablePayload "Professor details unavailable" ∧
    chat_with_mistral "who is Rao?"
        "\x7b\"tool\": \"query_knowledge_base\", \"arguments\": \x7b\"query_text\": \"Rao\"\x7d\x7d"
        (fun _ _ => .ok "Professor details unavailable")
      = .ok ⟨some (.str "query_knowledge_base", .obj [("query_text", .str "Rao")]),
          .grounded "who is Rao?" "Professor details unavailable"⟩ ∧
    renderGenCalls (.grounded "who is Rao?" "Professor details unavailable")
      = [⟨natural_response_prompt "who is Rao?" "Professor details unavailable", .response⟩] :=
  ⟨rfl, rfl, rfl⟩

/-- C1 amended: on a validated invocation, the grounded generation call
pairing the user question with the retrieved payload is issued exactly when
the error-detection block flags nothing (spec `Success` or
`UnparsablePayload`); a flagged payload (string-`error` mapping or empty
sequence) yields the fixed refusal with no render-path generation call; an
invocation exception — or a classification exception — yields a grounded
generation call carrying the failure message in place of retrieved data. -/
theorem C1_amended_grounded_characterization (u d raw : String)
    (tc : List (String × Json)) (tname args : Json)
    (hext : _extract_tool_call d.toList = some (.obj tc))
    (htool : dictGetLast tc "tool" = some tname)
    (hnn : jsonEqStr tname "none" = false)
    (hargs : dictGetLast tc "arguments" = some args)
    (hval : validation_fails tname args = .ok false) :
    (detect_error raw = .ok false →
      chat_with_mistral u d (fun _ _ => .ok raw)
        = .ok ⟨some (tname, args), .grounded u raw⟩) ∧
    (detect_error raw = .ok true →
      chat_with_mistral u d (fun _ _ => .ok raw)
        = .ok ⟨some (tname, args), .staticRefusal⟩ ∧
      renderGenCalls .staticRefusal = []) ∧
    (∀ exc, detect_error raw = .error exc →
      chat_with_mistral u d (fun _ _ => .ok raw)
        = .ok ⟨some (tname, args),
            .grounded u ("Tool execution failed: " ++ exc.toMessage)⟩) ∧
    (∀ m, chat_with_mistral u d (fun _ _ => .exn m)
        = .ok ⟨some (tname, args), .grounded u ("Tool execution failed: " ++ m)⟩) := by
  refine ⟨?_, ?_, ?_, ?_⟩
  · intro hdet
    rw [chat_with_mistral_invoke u d (fun _ _ => .ok raw) tc tname args hext htool hnn hargs hval]
    dsimp only
    rw [hdet]
    rfl
  · intro hdet
    have hne := detect_error_true_ne_empty raw hdet
    rw [chat_with_mistral_invoke u d (fun _ _ => .ok raw) tc tname args hext htool hnn hargs hval]
    dsimp only
    rw [hdet, fallback_static_of_ne_empty u raw hne]
    exact ⟨rfl, rfl⟩
  · intro exc hdet
    rw [chat_with_mistral_invoke u d (fun _ _ => .ok raw) tc tname args hext htool hnn hargs hval]
    dsimp only
    rw [hdet]
    rfl
  · intro m
    rw [chat_with_mistral_invoke u d (fun _ _ => .exn m) tc tname args hext htool hnn hargs hval]
    rfl

/-- C1 amended, witness: a validated `query_knowledge_base` turn whose
payload is usable data concretely takes the grounded branch of the
characterization. -/
theorem C1_amended_grounded_witness :
    chat_with_mistral "syllabus?"
        "\x7b\"tool\": \"query_knowledge_base\", \"arguments\": \x7b\"query_text\": \"syllabus\"\x7d\x7d"
        (fun _ _ => .ok "[\"CS syllabus chunk\"]")
      = .ok ⟨some (.str "query_knowledge_base", .obj [("query_text", .str "syllabus")]),
          .grounded "syllabus?" "[\"CS syllabus chunk\"]"⟩ :=
  (C1_amended_grounded_characterization "syllabus?"
      "\x7b\"tool\": \"query_knowledge_base\", \"arguments\": \x7b\"query_text\": \"syllabus\"\x7d\x7d"
      "[\"CS syllabus chunk\"]"
      [("tool", .str "query_knowledge_base"), ("arguments", .obj [("query_text", .str "syllabus")])]
      (.str "query_knowledge_base") (.obj [("query_text", .str "syllabus")])
      rfl rfl rfl rfl rfl).1 rfl

/-- Replacement is the identity when the pattern's first character does not
occur in the input. -/
theorem pyReplaceAux_id (p : Char) (ps repl : List Char) :
    ∀ (fuel : Nat) (s : List Char), p ∉ s → pyReplaceAux (p :: ps) repl fuel s = s := by
  intro fuel
  induction fuel with
  | zero => intro s _; rfl
  | succ fuel ih =>
    intro s hp
    cases s with
    | nil => rfl
    | cons c rest =>
      have hcond : ¬((p :: ps) ≠ [] ∧ ((p :: ps).isPrefixOf (c :: rest)) = true) := by
        rintro ⟨-, hpre⟩
        simp only [List.isPrefixOf, Bool.and_eq_true, beq_iff_eq] at hpre
        exact hp (hpre.1 ▸ List.mem_cons_self c rest)
      simp only [pyReplaceAux]
      rw [if_neg hcond, ih rest (fun h => hp (List.mem_cons_of_mem c h))]

/-- Replacement by a pattern whose head character is absent from the input
leaves the input unchanged. -/
theorem pyReplace_id_of_head (pat repl s : List Char) (p : Char)
    (hp : pat.head? = some p) (hmem : p ∉ s) : pyReplace pat repl s = s := by
  cases pat with
  | nil => simp at hp
  | cons q ps =>
    obtain rfl : q = p := by simpa using hp
    exact pyReplaceAux_id q ps repl s.length s hmem

/-- Deleting occurrences of a pattern introduces no new characters. -/
theorem pyReplaceAux_mem (pat : List Char) :
    ∀ (fuel : Nat) (s : List Char) (x : Char),
      x ∈ pyReplaceAux pat [] fuel s → x ∈ s := by
  intro fuel
  induction fuel with
  | zero => intro s x h; exact h
  | succ fuel ih =>
    intro s x h
    cases s with
    | nil => simp [pyReplaceAux] at h
    | cons c rest =>
      simp only [pyReplaceAux] at h
      by_cases hcond : (pat ≠ [] ∧ (pat.isPrefixOf (c :: rest)) = true)
      · rw [if_pos hcond] at h
        simp only [List.nil_append] at h
        exact List.drop_subset _ _ (ih _ x h)
      · rw [if_neg hcond] at h
        rcases List.mem_cons.mp h with rfl | h2
        · exact List.mem_cons_self _ _
        · exact List.mem_cons_of_mem _ (ih _ _ h2)

/-- Stripping introduces no new characters. -/
theorem pyStrip_mem (s : List Char) (x : Char) (h : x ∈ pyStrip s) : x ∈ s := by
  unfold pyStrip at h
  rw [List.mem_reverse] at h
  have h2 := (List.dropWhile_sublist _).subset h
  rw [List.mem_reverse] at h2
  exact (List.dropWhile_sublist _).subset h2

/-- The extractor's preprocessing (fence removal then stripping) introduces
no new characters. -/
theorem extract_pre_mem (t : List Char) (x : Char)
    (h : x ∈ pyStrip (pyReplace fence [] (pyReplace fence_json [] t))) : x ∈ t :=
  pyReplaceAux_mem fence_json _ _ x
    (pyReplaceAux_mem fence _ _ x (pyStrip_mem _ _ h))

/-- An absent character is never found. -/
theorem pyFind_eq_none (c : Char) (l : List Char) (h : c ∉ l) : pyFind c l = none := by
  induction l with
  | nil => rfl
  | cons x rest ih =>
    have hxc : (x == c) = false := by
      simp only [beq_eq_false_iff_ne]
      intro h2
      exact h (h2 ▸ List.mem_cons_self x rest)
    simp only [pyFind, hxc, Bool.false_eq_true, if_false,
      ih (fun hm => h (List.mem_cons_of_mem x hm)), Option.map_none']

/-- Finding a character just past a prefix that avoids it. -/
theorem pyFind_append_cons (c : Char) (pre suf : List Char) (hpre : c ∉ pre) :
    pyFind c (pre ++ c :: suf) = some pre.length := by
  induction pre with
  | nil => simp [pyFind]
  | cons x rest ih =>
    have hxc : (x == c) = false := by
      simp only [beq_eq_false_iff_ne]
      intro h2
      exact hpre (h2 ▸ List.mem_cons_self x rest)
    have ih2 := ih (fun hm => hpre (List.mem_cons_of_mem x hm))
    simp only [List.cons_append, pyFind, hxc, Bool.false_eq_true, if_false, List.append_eq,
      ih2, Option.map_some', List.length_cons]

/-- Reverse-finding a character just before a suffix that avoids it. -/
theorem pyRFind_append_cons (c : Char) (init suf : List Char) (hsuf : c ∉ suf) :
    pyRFind c (init ++ c :: suf) = some init.length := by
  unfold pyRFind
  have hrev : (init ++ c :: suf).reverse = suf.reverse ++ c :: init.reverse := by
    simp [List.reverse_append, List.reverse_cons, List.append_assoc]
  rw [hrev, pyFind_append_cons c _ _ (by simpa using hsuf)]
  simp only [Option.map_some', List.length_reverse, List.length_append, List.length_cons]
  congr 1
  omega

/-- A list ending in `c` splits off that last character. -/
theorem getLast?_decomp (l : List Char) (c : Char) (h : l.getLast? = some c) :
    ∃ init, l = init ++ [c] := by
  induction l with
  | nil => simp at h
  | cons x rest ih =>
    cases rest with
    | nil =>
      have : x = c := by simpa using h
      exact ⟨[], by simp [this]⟩
    | cons y ys =>
      rw [List.getLast?_cons_cons] at h
      obtain ⟨init, heq⟩ := ih h
      exact ⟨x :: init, by simp [heq]⟩

/-- Dropping a prefix-predicate across an append whose right part starts
with a failing character. -/
theorem dropWhile_append_head (p : Char → Bool) (a b : List Char) (c : Char)
    (hb : b.head? = some c) (hc : p c = false) :
    (a ++ b).dropWhile p = a.dropWhile p ++ b := by
  induction a with
  | nil =>
    cases b with
    | nil => simp at hb
    | cons x bs =>
      obtain rfl : x = c := by simpa using hb
      simp [List.dropWhile_cons, hc]
  | cons x as ih =>
    cases hx : p x with
    | true => simp [List.dropWhile_cons, hx, ih]
    | false => simp [List.dropWhile_cons, hx]

/-- Stripping a text whose middle block starts and ends with non-space
characters only trims the surrounding prose. -/
theorem pyStrip_decomp (p₁ j p₂ : List Char) (c₀ cn : Char)
    (hhead : j.head? = some c₀) (hc0 : isPySpace c₀ = false)
    (hlast : j.getLast? = some cn) (hcn : isPySpace cn = false) :
    pyStrip (p₁ ++ j ++ p₂)
      = p₁.dropWhile isPySpace ++ j ++ (p₂.reverse.dropWhile isPySpace).reverse := by
  unfold pyStrip
  have h1 : ((p₁ ++ j ++ p₂).dropWhile isPySpace)
      = p₁.dropWhile isPySpace ++ (j ++ p₂) := by
    rw [List.append_assoc]
    apply dropWhile_append_head isPySpace p₁ (j ++ p₂) c₀ _ hc0
    cases j with
    | nil => simp at hhead
    | cons a t => simpa using hhead
  rw [h1]
  have h2 : (p₁.dropWhile isPySpace ++ (j ++ p₂)).reverse
      = p₂.reverse ++ (j.reverse ++ (p₁.dropWhile isPySpace).reverse) := by
    simp [List.reverse_append, List.append_assoc]
  rw [h2]
  have hjrev : j.reverse.head? = some cn := by
    rw [List.head?_reverse]
    exact hlast
  have h3 : ((p₂.reverse ++ (j.reverse ++ (p₁.dropWhile isPySpace).reverse)).dropWhile isPySpace)
      = p₂.reverse.dropWhile isPySpace ++ (j.reverse ++ (p₁.dropWhile isPySpace).reverse) := by
    apply dropWhile_append_head isPySpace _ _ cn _ hcn
    cases hj : j.reverse with
    | nil => rw [hj] at hjrev; simp at hjrev
    | cons a t =>
      rw [hj] at hjrev
      simpa using hjrev
  rw [h3]
  simp [List.reverse_append, List.append_assoc]

/-- C7 amended: after fence removal and stripping, the extractor recovers a
decision exactly when the first `\x7b` and the last `\x7d` of the text
delimit a parsable object with both required keys — in particular whenever a
valid decision object is embedded in prose free of braces and backticks —
and it returns no decision whenever the text lacks a `\x7b` or lacks a
`\x7d`. -/
theorem C7_amended_delimited_extraction :
    (∀ (p₁ p₂ j : List Char) (ms : List (String × Json)),
      '\x60' ∉ p₁ → '\x60' ∉ p₂ → '\x60' ∉ j →
      obr ∉ p₁ → cbr ∉ p₂ →
      j.head? = some obr → j.getLast? = some cbr →
      Json.parse j = some (.obj ms) →
      ms.any (fun kv => kv.1 == "tool") = true →
      ms.any (fun kv => kv.1 == "arguments") = true →
      _extract_tool_call (p₁ ++ j ++ p₂) = some (.obj ms)) ∧
    (∀ t : List Char, obr ∉ t ∨ cbr ∉ t → _extract_tool_call t = none) := by
  constructor
  · intro p₁ p₂ j ms hb1 hb2 hbj ho1 hc2 hhead hlast hparse hany1 hany2
    have hbt : '\x60' ∉ p₁ ++ j ++ p₂ := by
      simp [List.mem_append, hb1, hb2, hbj]
    have hrep : pyReplace fence [] (pyReplace fence_json [] (p₁ ++ j ++ p₂))
        = p₁ ++ j ++ p₂ := by
      rw [pyReplace_id_of_head fence_json [] _ '\x60' rfl hbt,
        pyReplace_id_of_head fence [] _ '\x60' rfl hbt]
    have hstr := pyStrip_decomp p₁ j p₂ obr cbr hhead (by decide) hlast (by decide)
    set P₁ := p₁.dropWhile isPySpace with hP₁
    set P₂ := (p₂.reverse.dropWhile isPySpace).reverse with hP₂
    have hoP₁ : obr ∉ P₁ := fun h => ho1 ((List.dropWhile_sublist _).subset h)
    have hcP₂ : cbr ∉ P₂ := by
      intro h
      rw [hP₂, List.mem_reverse] at h
      have h4 := (List.dropWhile_sublist _).subset h
      rw [List.mem_reverse] at h4
      exact hc2 h4
    obtain ⟨j0, hj0⟩ : ∃ j0, j = obr :: j0 := by
      cases j with
      | nil => simp at hhead
      | cons a t =>
        have ha : a = obr := by simpa using hhead
        exact ⟨t, by rw [ha]⟩
    obtain ⟨jInit, hjI⟩ := getLast?_decomp j cbr hlast
    have hfind : pyFind obr (P₁ ++ j ++ P₂) = some P₁.length := by
      rw [hj0, show P₁ ++ (obr :: j0) ++ P₂ = P₁ ++ obr :: (j0 ++ P₂) by
        simp [List.append_assoc]]
      exact pyFind_append_cons obr P₁ (j0 ++ P₂) hoP₁
    have hrfind : pyRFind cbr (P₁ ++ j ++ P₂) = some (P₁.length + jInit.length) := by
      rw [hjI, show P₁ ++ (jInit ++ [cbr]) ++ P₂ = (P₁ ++ jInit) ++ cbr :: P₂ by
        simp [List.append_assoc]]
      rw [pyRFind_append_cons cbr (P₁ ++ jInit) P₂ hcP₂]
      simp [List.length_append]
    have hjlen : j.length = jInit.length + 1 := by
      rw [hjI]
      simp
    have hslice : pySlice (P₁ ++ j ++ P₂) P₁.length (P₁.length + jInit.length + 1) = j := by
      unfold pySlice
      rw [List.append_assoc, List.drop_left,
        show P₁.length + jInit.length + 1 - P₁.length = j.length by omega]
      exact List.take_left j P₂
    simp only [_extract_tool_call, hrep, hstr, hfind, hrfind]
    rw [if_pos (by omega), hslice, hparse]
    simp [pyIn, hany1, hany2]
  · intro t h
    rcases h with h | h
    · have hm : obr ∉ pyStrip (pyReplace fence [] (pyReplace fence_json [] t)) :=
        fun hmem => h (extract_pre_mem t obr hmem)
      simp only [_extract_tool_call, pyFind_eq_none obr _ hm]
    · have hm : cbr ∉ pyStrip (pyReplace fence [] (pyReplace fence_json [] t)) :=
        fun hmem => h (extract_pre_mem t cbr hmem)
      have hrf : pyRFind cbr (pyStrip (pyReplace fence [] (pyReplace fence_json [] t)))
          = none := by
        unfold pyRFind
        rw [pyFind_eq_none cbr _ (by simpa using hm)]
        rfl
      simp only [_extract_tool_call, hrf]
      cases hf : pyFind obr (pyStrip (pyReplace fence [] (pyReplace fence_json [] t))) with
      | none => rfl
      | some start =>
        dsimp only
        rw [if_neg (by omega)]

/-- C7 counterexample: the decision text contains the syntactically valid
object `\x7b"tool": "none", "arguments": \x7b\x7d\x7d` as a contiguous
substring inside surrounding prose, but a stray `\x7b` earlier in the prose
shifts the first-`\x7b`-to-last-`\x7d` slice to an unparsable string, so the
extractor returns no decision instead of recovering the object. -/
theorem C7_counterexample :
    isSubListOf "\x7b\"tool\": \"none\", \"arguments\": \x7b\x7d\x7d".toList
        "see \x7b below: \x7b\"tool\": \"none\", \"arguments\": \x7b\x7d\x7d".toList = true ∧
    Json.parse "\x7b\"tool\": \"none\", \"arguments\": \x7b\x7d\x7d".toList
      = some (.obj [("tool", .str "none"), ("arguments", .obj [])]) ∧
    _extract_tool_call "see \x7b below: \x7b\"tool\": \"none\", \"arguments\": \x7b\x7d\x7d".toList
      = none :=
  ⟨rfl, rfl, rfl⟩

/-- C7 amended, witness: a decision object surrounded by brace-free and
backtick-free prose is recovered exactly, and a text with no braces yields
no decision. -/
theorem C7_amended_witness :
    _extract_tool_call ("Sure thing: ".toList
        ++ "\x7b\"tool\": \"none\", \"arguments\": \x7b\x7d\x7d".toList
        ++ " hope that helps".toList)
      = some (.obj [("tool", .str "none"), ("arguments", .obj [])]) ∧
    _extract_tool_call "no decision here".toList = none :=
  ⟨C7_amended_delimited_extraction.1 "Sure thing: ".toList " hope that helps".toList
      "\x7b\"tool\": \"none\", \"arguments\": \x7b\x7d\x7d".toList
      [("tool", .str "none"), ("arguments", .obj [])]
      (by decide) (by decide) (by decide) (by decide) (by decide)
      rfl rfl rfl rfl rfl,
    C7_amended_delimited_extraction.2 "no decision here".toList (Or.inl (by decide))⟩
